import Mathlib

/-!
Verification of the ETL expression-evaluation core: a shallow embedding of
the evaluator (evaluator.hpp), the strategy selectors (eval_selectors.hpp),
the element-wise execution functors (eval_functors.hpp), the gemm
implementation selector (impl/mmul.hpp), the scalar wrapper (op/scalar.hpp)
and the 2-D sub-matrix view (op/sub_matrix_2d.hpp).

Buffers are modelled as total functions `Nat → α` (the destination memory
seen through flat indices); the value type, a C++ template parameter in the
source, is an abstract type `α`.  Loops of the functors are modelled as
fuel-indexed recursive functions; every functor supplies fuel that is proved
sufficient for its loop bounds, so the model computes exactly the iterations
the source performs.  `size & std::size_t(-4)` is written `size - size % 4`,
and `size & std::size_t(-W)` is written `size - size % W`: for the power-of-two
SIMD widths the source uses, the two agree.
-/

namespace Etl

variable {α : Type}

/-- The effect, on a buffer, of applying the update `lhs[j] := g (lhs[j], rhs[j])`
to every index of `[first, last)`: the closed form every execution-functor
loop is proved to compute on its covered range. -/
def opSpec (g : α → α → α) (rhs : Nat → α) (first last : Nat) (buf : Nat → α) : Nat → α :=
  fun j => if first ≤ j ∧ j < last then g (buf j) (rhs j) else buf j

/-- One scalar update `lhs[i] op= rhs[i]` (one iteration of a scalar loop body). -/
def writeOne (g : α → α → α) (rhs : Nat → α) (i : Nat) (buf : Nat → α) : Nat → α :=
  fun j => if j = i then g (buf j) (rhs j) else buf j

/-- One SIMD lane-chunk store at `i` of width `W`: load `W` lanes of `lhs` and
`rhs`, combine lanewise with `g`, store back (`lhs.store(g(lhs_load(i), rhs_load(i)), i)`). -/
def storeChunk (g : α → α → α) (rhs : Nat → α) (i W : Nat) (buf : Nat → α) : Nat → α :=
  fun j => if i ≤ j ∧ j < i + W then g (buf j) (rhs j) else buf j

/-- The body of one unrolled-by-4 scalar loop iteration (eval_functors.hpp,
e.g. AssignAdd lines 251-256): four consecutive scalar updates. -/
def unrolledBody (g : α → α → α) (rhs : Nat → α) (i : Nat) (buf : Nat → α) : Nat → α :=
  writeOne g rhs (i + 3) (writeOne g rhs (i + 2) (writeOne g rhs (i + 1) (writeOne g rhs i buf)))

/-- The body of one 4-chunk vectorized loop iteration (eval_functors.hpp,
e.g. VectorizedAssignAdd lines 308-311): four lane-chunk stores at
`i`, `i+W`, `i+2W`, `i+3W`. -/
def chunk4Body (g : α → α → α) (rhs : Nat → α) (i W : Nat) (buf : Nat → α) : Nat → α :=
  storeChunk g rhs (i + 3 * W) W (storeChunk g rhs (i + 2 * W) W
    (storeChunk g rhs (i + W) W (storeChunk g rhs i W buf)))

theorem opSpec_empty (g : α → α → α) (rhs : Nat → α) {first last : Nat} (h : last ≤ first)
    (buf : Nat → α) : opSpec g rhs first last buf = buf := by
  funext j
  simp only [opSpec]
  rw [if_neg (by omega)]

theorem opSpec_compose (g : α → α → α) (rhs : Nat → α) (a b c : Nat) (hab : a ≤ b) (hbc : b ≤ c)
    (buf : Nat → α) : opSpec g rhs b c (opSpec g rhs a b buf) = opSpec g rhs a c buf := by
  funext j
  simp only [opSpec]
  by_cases h1 : b ≤ j ∧ j < c
  · rw [if_pos h1, if_neg (by omega), if_pos (by omega)]
  · rw [if_neg h1]
    by_cases h2 : a ≤ j ∧ j < b
    · rw [if_pos h2, if_pos (by omega)]
    · rw [if_neg h2, if_neg (by omega)]

theorem writeOne_eq_opSpec (g : α → α → α) (rhs : Nat → α) (i : Nat) (buf : Nat → α) :
    writeOne g rhs i buf = opSpec g rhs i (i + 1) buf := by
  funext j
  simp only [writeOne, opSpec]
  by_cases h : j = i
  · rw [if_pos h, if_pos (by omega)]
  · rw [if_neg h, if_neg (by omega)]

theorem storeChunk_eq_opSpec (g : α → α → α) (rhs : Nat → α) (i W : Nat) (buf : Nat → α) :
    storeChunk g rhs i W buf = opSpec g rhs i (i + W) buf := rfl

theorem unrolledBody_eq (g : α → α → α) (rhs : Nat → α) (i : Nat) (buf : Nat → α) :
    unrolledBody g rhs i buf = opSpec g rhs i (i + 4) buf := by
  funext j
  simp only [unrolledBody, writeOne, opSpec]
  split_ifs <;> first | rfl | omega

theorem chunk4Body_eq (g : α → α → α) (rhs : Nat → α) (i W : Nat) (buf : Nat → α) :
    chunk4Body g rhs i W buf = opSpec g rhs i (i + W * 4) buf := by
  funext j
  simp only [chunk4Body, storeChunk, opSpec]
  split_ifs <;> first | rfl | omega

/-! ### Loops of the scalar functors (eval_functors.hpp)

`scalarLoop4` is the unrolled-by-4 loop `for (i = first; i < iend; i += 4)` of
Assign / AssignAdd / AssignSub / AssignMul / AssignDiv; `scalarTail` is the
remainder loop `for (i = iend; i < last; ++i)`.  The first argument is fuel;
the functor definitions below pass fuel large enough for every iteration. -/

def scalarLoop4 (g : α → α → α) (rhs : Nat → α) : Nat → Nat → Nat → (Nat → α) → (Nat → α)
  | 0, _, _, buf => buf
  | fuel + 1, i, iend, buf =>
    if i < iend then scalarLoop4 g rhs fuel (i + 4) iend (unrolledBody g rhs i buf) else buf

def scalarTail (g : α → α → α) (rhs : Nat → α) : Nat → Nat → Nat → (Nat → α) → (Nat → α)
  | 0, _, _, buf => buf
  | fuel + 1, i, last, buf =>
    if i < last then scalarTail g rhs fuel (i + 1) last (writeOne g rhs i buf) else buf

/-- `Assign::operator()` (eval_functors.hpp lines 51-68): plain scalar assign of
`rhs.read_flat(i)` into `lhs[i]` over `[0, size)`, unrolled by 4 when
`unroll_normal_loops` is set (`iend = size & size_t(-4)`). -/
def Assign (unroll : Bool) (size : Nat) (rhs buf : Nat → α) : Nat → α :=
  let iend := if unroll then size - size % 4 else 0
  let buf1 := if unroll then scalarLoop4 (fun _ r => r) rhs size 0 iend buf else buf
  scalarTail (fun _ r => r) rhs (size - iend) iend size buf1

/-- The shared loop shape of the scalar compound functors
(`AssignAdd`/`AssignSub`/`AssignMul`/`AssignDiv::operator()`, eval_functors.hpp):
`iend = first + (size & size_t(-4))` when `unroll_normal_loops`, the unrolled
loop, then the scalar remainder to `last`.  `g` is the compound update of the
concrete functor. -/
def scalarCompoundApply (g : α → α → α) (unroll : Bool) (first lastIdx : Nat)
    (rhs buf : Nat → α) : Nat → α :=
  let size := lastIdx - first
  let iend := if unroll then first + (size - size % 4) else first
  let buf1 := if unroll then scalarLoop4 g rhs size first iend buf else buf
  scalarTail g rhs (lastIdx - iend) iend lastIdx buf1

/-- `AssignAdd::operator()` (eval_functors.hpp lines 245-262): `lhs[i] += rhs[i]`. -/
def AssignAdd [Add α] (unroll : Bool) (first lastIdx : Nat) (rhs buf : Nat → α) : Nat → α :=
  scalarCompoundApply (fun a b => a + b) unroll first lastIdx rhs buf

/-- `AssignSub::operator()` (eval_functors.hpp lines 352-369): `lhs[i] -= rhs[i]`. -/
def AssignSub [Sub α] (unroll : Bool) (first lastIdx : Nat) (rhs buf : Nat → α) : Nat → α :=
  scalarCompoundApply (fun a b => a - b) unroll first lastIdx rhs buf

/-- `AssignMul::operator()` (eval_functors.hpp lines 459-476): `lhs[i] *= rhs[i]`. -/
def AssignMul [Mul α] (unroll : Bool) (first lastIdx : Nat) (rhs buf : Nat → α) : Nat → α :=
  scalarCompoundApply (fun a b => a * b) unroll first lastIdx rhs buf

/-- `AssignDiv::operator()` (eval_functors.hpp lines 568-585): `lhs[i] /= rhs[i]`. -/
def AssignDiv [Div α] (unroll : Bool) (first lastIdx : Nat) (rhs buf : Nat → α) : Nat → α :=
  scalarCompoundApply (fun a b => a / b) unroll first lastIdx rhs buf

/-! ### Loops of the vectorized compound functors

`vecLoop4` is `for (; i + IT::size * 4 - 1 < last; i += IT::size * 4)` and
`vecLoop1` is `for (; i + IT::size - 1 < last; i += IT::size)` of
VectorizedAssignAdd / Sub / Mul / Div.  Each returns the loop exit index with
the buffer, since the next loop of the functor continues from it. -/

def vecLoop4 (g : α → α → α) (rhs : Nat → α) (W : Nat) :
    Nat → Nat → Nat → (Nat → α) → Nat × (Nat → α)
  | 0, i, _, buf => (i, buf)
  | fuel + 1, i, last, buf =>
    if i + W * 4 - 1 < last then
      vecLoop4 g rhs W fuel (i + W * 4) last (chunk4Body g rhs i W buf)
    else (i, buf)

def vecLoop1 (g : α → α → α) (rhs : Nat → α) (W : Nat) :
    Nat → Nat → Nat → (Nat → α) → Nat × (Nat → α)
  | 0, i, _, buf => (i, buf)
  | fuel + 1, i, last, buf =>
    if i + W - 1 < last then
      vecLoop1 g rhs W fuel (i + W) last (storeChunk g rhs i W buf)
    else (i, buf)

/-- Modelled from the spec: `alloc_size<T>(n)` is not part of the staged files;
the spec states that padded containers over-allocate to the next multiple of
the SIMD lane-width tier, so the padded length of `n` elements with padding
unit `P` is the least multiple of `P` that is at least `n`. -/
def alloc_size (P n : Nat) : Nat := P * ((n + P - 1) / P)

/-- The shared loop shape of the vectorized compound functors
(`VectorizedAssignAdd`/`Sub`/`Mul`/`Div::operator()`, eval_functors.hpp):
`last = remainder ? _last : _first + alloc_size(_size)`, the 4-chunk loop, the
1-chunk loop, then the scalar remainder when `remainder` holds.  `remainder`
is `!padding || !all_padded<L_Expr, R_Expr>`; `g` is the lanewise combine (for
the complex Mul/Div variants the distinct intrinsic algorithm computes the
same lanewise product/quotient). -/
def vecCompoundApply (g : α → α → α) (W : Nat) (remainder : Bool) (allocSize : Nat → Nat)
    (first lastIdx : Nat) (rhs buf : Nat → α) : Nat → α :=
  let size := lastIdx - first
  let last := if remainder then lastIdx else first + allocSize size
  let r4 := vecLoop4 g rhs W (last - first) first last buf
  let r1 := vecLoop1 g rhs W (last - r4.1) r4.1 last r4.2
  if remainder then scalarTail g rhs (last - r1.1) r1.1 last r1.2 else r1.2

/-- `VectorizedAssignAdd::operator()` (eval_functors.hpp lines 300-322). -/
def VectorizedAssignAdd [Add α] (W : Nat) (remainder : Bool) (allocSize : Nat → Nat)
    (first lastIdx : Nat) (rhs buf : Nat → α) : Nat → α :=
  vecCompoundApply (fun a b => a + b) W remainder allocSize first lastIdx rhs buf

/-- `VectorizedAssignSub::operator()` (eval_functors.hpp lines 407-429). -/
def VectorizedAssignSub [Sub α] (W : Nat) (remainder : Bool) (allocSize : Nat → Nat)
    (first lastIdx : Nat) (rhs buf : Nat → α) : Nat → α :=
  vecCompoundApply (fun a b => a - b) W remainder allocSize first lastIdx rhs buf

/-- `VectorizedAssignMul::operator()` (eval_functors.hpp lines 516-538). -/
def VectorizedAssignMul [Mul α] (W : Nat) (remainder : Bool) (allocSize : Nat → Nat)
    (first lastIdx : Nat) (rhs buf : Nat → α) : Nat → α :=
  vecCompoundApply (fun a b => a * b) W remainder allocSize first lastIdx rhs buf

/-- `VectorizedAssignDiv::operator()` (eval_functors.hpp lines 625-647). -/
def VectorizedAssignDiv [Div α] (W : Nat) (remainder : Bool) (allocSize : Nat → Nat)
    (first lastIdx : Nat) (rhs buf : Nat → α) : Nat → α :=
  vecCompoundApply (fun a b => a / b) W remainder allocSize first lastIdx rhs buf

/-! ### VectorizedAssign (plain vectorized assignment, eval_functors.hpp lines 183-214)

Its loops differ from the compound family: the streaming branch is a plain
1-chunk loop of non-temporal stores `for (; i < last; i += IT::size)`, and the
non-streaming branch unrolls with guard `i + (IT::size * 3) < last` and then
runs `for (; i < last; i += IT::size)`.  Value-wise a non-temporal store writes
the same lanes as a cached store, so both chunk writes are `storeChunk` with
the copy combine. -/

def streamLoop (rhs : Nat → α) (W : Nat) : Nat → Nat → Nat → (Nat → α) → Nat × (Nat → α)
  | 0, i, _, buf => (i, buf)
  | fuel + 1, i, last, buf =>
    if i < last then
      streamLoop rhs W fuel (i + W) last (storeChunk (fun _ r => r) rhs i W buf)
    else (i, buf)

def vaLoop4 (rhs : Nat → α) (W : Nat) : Nat → Nat → Nat → (Nat → α) → Nat × (Nat → α)
  | 0, i, _, buf => (i, buf)
  | fuel + 1, i, last, buf =>
    if i + W * 3 < last then
      vaLoop4 rhs W fuel (i + W * 4) last (chunk4Body (fun _ r => r) rhs i W buf)
    else (i, buf)

def vaLoop1 (rhs : Nat → α) (W : Nat) : Nat → Nat → Nat → (Nat → α) → Nat × (Nat → α)
  | 0, i, _, buf => (i, buf)
  | fuel + 1, i, last, buf =>
    if i < last then
      vaLoop1 rhs W fuel (i + W) last (storeChunk (fun _ r => r) rhs i W buf)
    else (i, buf)

/-- The streaming-store condition of `VectorizedAssign::operator()` (line 190):
`streaming && _size > cache_size / (sizeof(lhs_value_type) * 3) && !rhs.alias(lhs)`. -/
def streamingCond (streaming : Bool) (size cacheSize elemSize : Nat) (aliased : Bool) : Bool :=
  streaming && decide (size > cacheSize / (elemSize * 3)) && !aliased

/-- `last = remainder ? _first + (_size & size_t(-IT::size)) : _last` (line 186). -/
def vaComputedLast (W : Nat) (remainder : Bool) (first lastIdx : Nat) : Nat :=
  if remainder then first + ((lastIdx - first) - (lastIdx - first) % W) else lastIdx

/-- The streaming branch of `VectorizedAssign::operator()` (lines 191-197):
non-temporal chunk stores to `last`, then the scalar remainder to `_last`. -/
def vaStreamingPath (W : Nat) (remainder : Bool) (first lastIdx last : Nat)
    (rhs buf : Nat → α) : Nat → α :=
  let r := streamLoop rhs W (last - first) first last buf
  if remainder then scalarTail (fun _ r => r) rhs (lastIdx - r.1) r.1 lastIdx r.2 else r.2

/-- The non-streaming branch of `VectorizedAssign::operator()` (lines 199-212):
the 4-chunk cached-store loop, the 1-chunk loop, then the scalar remainder to
`_last`. -/
def vaStorePath (W : Nat) (remainder : Bool) (first lastIdx last : Nat)
    (rhs buf : Nat → α) : Nat → α :=
  let r4 := vaLoop4 rhs W (last - first) first last buf
  let r1 := vaLoop1 rhs W (last - r4.1) r4.1 last r4.2
  if remainder then scalarTail (fun _ r => r) rhs (lastIdx - r1.1) r1.1 lastIdx r1.2 else r1.2

/-- `VectorizedAssign::operator()` (eval_functors.hpp lines 183-214). -/
def VectorizedAssign (W : Nat) (remainder streaming : Bool) (cacheSize elemSize : Nat)
    (aliased : Bool) (first lastIdx : Nat) (rhs buf : Nat → α) : Nat → α :=
  let size := lastIdx - first
  let last := vaComputedLast W remainder first lastIdx
  if streamingCond streaming size cacheSize elemSize aliased then
    vaStreamingPath W remainder first lastIdx last rhs buf
  else
    vaStorePath W remainder first lastIdx last rhs buf

/-! ### Characterization of the loops: each computes `opSpec` on the range it covers -/

theorem scalarTail_spec (g : α → α → α) (rhs : Nat → α) :
    ∀ (fuel i last : Nat) (buf : Nat → α), last - i ≤ fuel →
      scalarTail g rhs fuel i last buf = opSpec g rhs i last buf := by
  intro fuel
  induction fuel with
  | zero =>
    intro i last buf h
    simp only [scalarTail]
    rw [opSpec_empty g rhs (by omega) buf]
  | succ fuel ih =>
    intro i last buf h
    simp only [scalarTail]
    by_cases hlt : i < last
    · rw [if_pos hlt, ih (i + 1) last _ (by omega), writeOne_eq_opSpec,
        opSpec_compose g rhs i (i + 1) last (by omega) (by omega)]
    · rw [if_neg hlt, opSpec_empty g rhs (by omega) buf]

theorem scalarLoop4_spec (g : α → α → α) (rhs : Nat → α) :
    ∀ (fuel i iend : Nat) (buf : Nat → α), iend - i ≤ fuel → 4 ∣ iend - i →
      scalarLoop4 g rhs fuel i iend buf = opSpec g rhs i iend buf := by
  intro fuel
  induction fuel with
  | zero =>
    intro i iend buf h _
    simp only [scalarLoop4]
    rw [opSpec_empty g rhs (by omega) buf]
  | succ fuel ih =>
    intro i iend buf h hd
    simp only [scalarLoop4]
    by_cases hlt : i < iend
    · have h4 : i + 4 ≤ iend := by omega
      rw [if_pos hlt, ih (i + 4) iend _ (by omega) (by omega), unrolledBody_eq,
        opSpec_compose g rhs i (i + 4) iend (by omega) h4]
    · rw [if_neg hlt, opSpec_empty g rhs (by omega) buf]

theorem vecLoop4_spec (g : α → α → α) (rhs : Nat → α) (W : Nat) (hW : 0 < W) :
    ∀ (fuel i last : Nat) (buf : Nat → α), last - i ≤ fuel → i ≤ last →
      (vecLoop4 g rhs W fuel i last buf).2
          = opSpec g rhs i (vecLoop4 g rhs W fuel i last buf).1 buf
        ∧ i ≤ (vecLoop4 g rhs W fuel i last buf).1
        ∧ (vecLoop4 g rhs W fuel i last buf).1 ≤ last := by
  intro fuel
  induction fuel with
  | zero =>
    intro i last buf h hi
    simp only [vecLoop4]
    exact ⟨(opSpec_empty g rhs (le_refl i) buf).symm, le_refl i, hi⟩
  | succ fuel ih =>
    intro i last buf h hi
    simp only [vecLoop4]
    by_cases hg : i + W * 4 - 1 < last
    · have hstep : i + W * 4 ≤ last := by omega
      rw [if_pos hg]
      obtain ⟨h1, h2, h3⟩ := ih (i + W * 4) last (chunk4Body g rhs i W buf) (by omega) hstep
      set e := vecLoop4 g rhs W fuel (i + W * 4) last (chunk4Body g rhs i W buf) with he
      refine ⟨?_, by omega, h3⟩
      rw [h1, chunk4Body_eq, opSpec_compose g rhs i (i + W * 4) e.1 (by omega) h2]
    · rw [if_neg hg]
      exact ⟨(opSpec_empty g rhs (le_refl i) buf).symm, le_refl i, hi⟩

theorem vecLoop1_spec (g : α → α → α) (rhs : Nat → α) (W : Nat) (hW : 0 < W) :
    ∀ (fuel i last : Nat) (buf : Nat → α), last - i ≤ fuel → i ≤ last →
      (vecLoop1 g rhs W fuel i last buf).2
          = opSpec g rhs i (vecLoop1 g rhs W fuel i last buf).1 buf
        ∧ i ≤ (vecLoop1 g rhs W fuel i last buf).1
        ∧ (vecLoop1 g rhs W fuel i last buf).1 ≤ last := by
  intro fuel
  induction fuel with
  | zero =>
    intro i last buf h hi
    simp only [vecLoop1]
    exact ⟨(opSpec_empty g rhs (le_refl i) buf).symm, le_refl i, hi⟩
  | succ fuel ih =>
    intro i last buf h hi
    simp only [vecLoop1]
    by_cases hg : i + W - 1 < last
    · have hstep : i + W ≤ last := by omega
      rw [if_pos hg]
      obtain ⟨h1, h2, h3⟩ := ih (i + W) last (storeChunk g rhs i W buf) (by omega) hstep
      set e := vecLoop1 g rhs W fuel (i + W) last (storeChunk g rhs i W buf) with he
      refine ⟨?_, by omega, h3⟩
      rw [h1, storeChunk_eq_opSpec, opSpec_compose g rhs i (i + W) e.1 (by omega) h2]
    · rw [if_neg hg]
      exact ⟨(opSpec_empty g rhs (le_refl i) buf).symm, le_refl i, hi⟩

theorem streamLoop_spec (rhs : Nat → α) (W : Nat) (hW : 0 < W) :
    ∀ (fuel i last : Nat) (buf : Nat → α), last - i ≤ fuel →
      (streamLoop rhs W fuel i last buf).2
          = opSpec (fun _ r => r) rhs i (streamLoop rhs W fuel i last buf).1 buf
        ∧ i ≤ (streamLoop rhs W fuel i last buf).1
        ∧ W ∣ (streamLoop rhs W fuel i last buf).1 - i
        ∧ last ≤ (streamLoop rhs W fuel i last buf).1
        ∧ ((streamLoop rhs W fuel i last buf).1 = i
            ∨ (streamLoop rhs W fuel i last buf).1 < last + W)
        ∧ (last ≤ i → (streamLoop rhs W fuel i last buf).1 = i) := by
  intro fuel
  induction fuel with
  | zero =>
    intro i last buf h
    simp only [streamLoop]
    exact ⟨(opSpec_empty _ rhs (le_refl i) buf).symm, le_refl i, by simp, by omega,
      Or.inl (by trivial), fun _ => by trivial⟩
  | succ fuel ih =>
    intro i last buf h
    simp only [streamLoop]
    by_cases hg : i < last
    · rw [if_pos hg]
      obtain ⟨h1, h2, h3, h4, h5, h6⟩ :=
        ih (i + W) last (storeChunk (fun _ r => r) rhs i W buf) (by omega)
      set e := streamLoop rhs W fuel (i + W) last (storeChunk (fun _ r => r) rhs i W buf) with he
      refine ⟨?_, by omega, ?_, h4, ?_, fun hc => absurd hg (by omega)⟩
      · rw [h1, storeChunk_eq_opSpec, opSpec_compose _ rhs i (i + W) e.1 (by omega) h2]
      · have hsplit : e.1 - i = (e.1 - (i + W)) + W := by omega
        rw [hsplit]
        exact dvd_add h3 dvd_rfl
      · rcases h5 with h5 | h5
        · right; omega
        · right; exact h5
    · rw [if_neg hg]
      exact ⟨(opSpec_empty _ rhs (le_refl i) buf).symm, le_refl i, by simp, by omega,
        Or.inl (by trivial), fun _ => by trivial⟩

theorem vaLoop1_spec (rhs : Nat → α) (W : Nat) (hW : 0 < W) :
    ∀ (fuel i last : Nat) (buf : Nat → α), last - i ≤ fuel →
      (vaLoop1 rhs W fuel i last buf).2
          = opSpec (fun _ r => r) rhs i (vaLoop1 rhs W fuel i last buf).1 buf
        ∧ i ≤ (vaLoop1 rhs W fuel i last buf).1
        ∧ W ∣ (vaLoop1 rhs W fuel i last buf).1 - i
        ∧ last ≤ (vaLoop1 rhs W fuel i last buf).1
        ∧ ((vaLoop1 rhs W fuel i last buf).1 = i
            ∨ (vaLoop1 rhs W fuel i last buf).1 < last + W)
        ∧ (last ≤ i → (vaLoop1 rhs W fuel i last buf).1 = i) := by
  intro fuel
  induction fuel with
  | zero =>
    intro i last buf h
    simp only [vaLoop1]
    exact ⟨(opSpec_empty _ rhs (le_refl i) buf).symm, le_refl i, by simp, by omega,
      Or.inl (by trivial), fun _ => by trivial⟩
  | succ fuel ih =>
    intro i last buf h
    simp only [vaLoop1]
    by_cases hg : i < last
    · rw [if_pos hg]
      obtain ⟨h1, h2, h3, h4, h5, h6⟩ :=
        ih (i + W) last (storeChunk (fun _ r => r) rhs i W buf) (by omega)
      set e := vaLoop1 rhs W fuel (i + W) last (storeChunk (fun _ r => r) rhs i W buf) with he
      refine ⟨?_, by omega, ?_, h4, ?_, fun hc => absurd hg (by omega)⟩
      · rw [h1, storeChunk_eq_opSpec, opSpec_compose _ rhs i (i + W) e.1 (by omega) h2]
      · have hsplit : e.1 - i = (e.1 - (i + W)) + W := by omega
        rw [hsplit]
        exact dvd_add h3 dvd_rfl
      · rcases h5 with h5 | h5
        · right; omega
        · right; exact h5
    · rw [if_neg hg]
      exact ⟨(opSpec_empty _ rhs (le_refl i) buf).symm, le_refl i, by simp, by omega,
        Or.inl (by trivial), fun _ => by trivial⟩

theorem vaLoop4_spec (rhs : Nat → α) (W : Nat) (hW : 0 < W) :
    ∀ (fuel i last : Nat) (buf : Nat → α), last - i ≤ fuel →
      (vaLoop4 rhs W fuel i last buf).2
          = opSpec (fun _ r => r) rhs i (vaLoop4 rhs W fuel i last buf).1 buf
        ∧ i ≤ (vaLoop4 rhs W fuel i last buf).1
        ∧ W ∣ (vaLoop4 rhs W fuel i last buf).1 - i
        ∧ ¬((vaLoop4 rhs W fuel i last buf).1 + W * 3 < last)
        ∧ ((vaLoop4 rhs W fuel i last buf).1 = i
            ∨ (vaLoop4 rhs W fuel i last buf).1 < last + W)
        ∧ (last ≤ i → (vaLoop4 rhs W fuel i last buf).1 = i) := by
  intro fuel
  induction fuel with
  | zero =>
    intro i last buf h
    simp only [vaLoop4]
    exact ⟨(opSpec_empty _ rhs (le_refl i) buf).symm, le_refl i, by simp, by omega,
      Or.inl (by trivial), fun _ => by trivial⟩
  | succ fuel ih =>
    intro i last buf h
    simp only [vaLoop4]
    by_cases hg : i + W * 3 < last
    · rw [if_pos hg]
      obtain ⟨h1, h2, h3, h4, h5, h6⟩ :=
        ih (i + W * 4) last (chunk4Body (fun _ r => r) rhs i W buf) (by omega)
      set e := vaLoop4 rhs W fuel (i + W * 4) last (chunk4Body (fun _ r => r) rhs i W buf) with he
      refine ⟨?_, by omega, ?_, h4, ?_, fun hc => absurd hg (by omega)⟩
      · rw [h1, chunk4Body_eq, opSpec_compose _ rhs i (i + W * 4) e.1 (by omega) h2]
      · have hsplit : e.1 - i = (e.1 - (i + W * 4)) + W * 4 := by omega
        rw [hsplit]
        exact dvd_add h3 (dvd_mul_right W 4)
      · rcases h5 with h5 | h5
        · right; omega
        · right; exact h5
    · rw [if_neg hg]
      exact ⟨(opSpec_empty _ rhs (le_refl i) buf).symm, le_refl i, by simp, by omega,
        Or.inl (by trivial), fun _ => by trivial⟩

/-! ### Closed forms of the functors -/

theorem Assign_eq (unroll : Bool) (size : Nat) (rhs buf : Nat → α) :
    Assign unroll size rhs buf = opSpec (fun _ r => r) rhs 0 size buf := by
  cases unroll with
  | false =>
    show scalarTail (fun _ r => r) rhs (size - 0) 0 size buf = _
    rw [scalarTail_spec (fun _ r => r) rhs (size - 0) 0 size buf (by omega)]
  | true =>
    show scalarTail (fun _ r => r) rhs (size - (size - size % 4)) (size - size % 4) size
        (scalarLoop4 (fun _ r => r) rhs size 0 (size - size % 4) buf) = _
    rw [scalarLoop4_spec (fun _ r => r) rhs size 0 (size - size % 4) buf (by omega) (by omega),
      scalarTail_spec (fun _ r => r) rhs _ _ _ _ (le_refl _),
      opSpec_compose (fun _ r => r) rhs 0 (size - size % 4) size (by omega) (by omega)]

theorem scalarCompoundApply_eq (g : α → α → α) (unroll : Bool) (first lastIdx : Nat)
    (hle : first ≤ lastIdx) (rhs buf : Nat → α) :
    scalarCompoundApply g unroll first lastIdx rhs buf = opSpec g rhs first lastIdx buf := by
  cases unroll with
  | false =>
    show scalarTail g rhs (lastIdx - first) first lastIdx buf = _
    rw [scalarTail_spec g rhs (lastIdx - first) first lastIdx buf (le_refl _)]
  | true =>
    show scalarTail g rhs
        (lastIdx - (first + ((lastIdx - first) - (lastIdx - first) % 4)))
        (first + ((lastIdx - first) - (lastIdx - first) % 4)) lastIdx
        (scalarLoop4 g rhs (lastIdx - first) first
          (first + ((lastIdx - first) - (lastIdx - first) % 4)) buf) = _
    rw [scalarLoop4_spec g rhs (lastIdx - first) first
        (first + ((lastIdx - first) - (lastIdx - first) % 4)) buf (by omega) (by omega),
      scalarTail_spec g rhs _ _ _ _ (le_refl _),
      opSpec_compose g rhs first (first + ((lastIdx - first) - (lastIdx - first) % 4)) lastIdx
        (by omega) (by omega)]

theorem vecCompoundApply_remainder_eq (g : α → α → α) (W : Nat) (hW : 0 < W)
    (allocSize : Nat → Nat) (first lastIdx : Nat) (hle : first ≤ lastIdx)
    (rhs buf : Nat → α) :
    vecCompoundApply g W true allocSize first lastIdx rhs buf = opSpec g rhs first lastIdx buf := by
  show scalarTail g rhs
      (lastIdx - (vecLoop1 g rhs W
        (lastIdx - (vecLoop4 g rhs W (lastIdx - first) first lastIdx buf).1)
        (vecLoop4 g rhs W (lastIdx - first) first lastIdx buf).1 lastIdx
        (vecLoop4 g rhs W (lastIdx - first) first lastIdx buf).2).1)
      (vecLoop1 g rhs W
        (lastIdx - (vecLoop4 g rhs W (lastIdx - first) first lastIdx buf).1)
        (vecLoop4 g rhs W (lastIdx - first) first lastIdx buf).1 lastIdx
        (vecLoop4 g rhs W (lastIdx - first) first lastIdx buf).2).1 lastIdx
      (vecLoop1 g rhs W
        (lastIdx - (vecLoop4 g rhs W (lastIdx - first) first lastIdx buf).1)
        (vecLoop4 g rhs W (lastIdx - first) first lastIdx buf).1 lastIdx
        (vecLoop4 g rhs W (lastIdx - first) first lastIdx buf).2).2 = _
  obtain ⟨h41, h42, h43⟩ :=
    vecLoop4_spec g rhs W hW (lastIdx - first) first lastIdx buf (le_refl _) hle
  set e4 := vecLoop4 g rhs W (lastIdx - first) first lastIdx buf with he4
  obtain ⟨h11, h12, h13⟩ :=
    vecLoop1_spec g rhs W hW (lastIdx - e4.1) e4.1 lastIdx e4.2 (le_refl _) h43
  set e1 := vecLoop1 g rhs W (lastIdx - e4.1) e4.1 lastIdx e4.2 with he1
  rw [scalarTail_spec g rhs (lastIdx - e1.1) e1.1 lastIdx e1.2 (le_refl _), h11, h41,
    opSpec_compose g rhs first e4.1 e1.1 h42 h12,
    opSpec_compose g rhs first e1.1 lastIdx (le_trans h42 h12) h13]

theorem alloc_size_zero (P : Nat) : alloc_size P 0 = 0 := by
  unfold alloc_size
  rcases Nat.eq_zero_or_pos P with h | h
  · subst h; rfl
  · rw [Nat.div_eq_of_lt (show 0 + P - 1 < P by omega), Nat.mul_zero]

/-- Two W-chunk loop endpoints that both start W-aligned from `first` and stop
in the window `[last, last + W)` coincide. -/
theorem endpoint_unique (W first last a b : Nat) (hW : 0 < W)
    (hfa : first ≤ a) (hfb : first ≤ b) (hda : W ∣ a - first) (hdb : W ∣ b - first)
    (hla : last ≤ a) (hlb : last ≤ b) (hwa : a < last + W) (hwb : b < last + W) : a = b := by
  have e1 : b - a = (b - first) - (a - first) := by omega
  have e2 : a - b = (a - first) - (b - first) := by omega
  have d1 : W ∣ b - a := e1 ▸ Nat.dvd_sub' hdb hda
  have d2 : W ∣ a - b := e2 ▸ Nat.dvd_sub' hda hdb
  have z1 := Nat.eq_zero_of_dvd_of_lt d1 (by omega)
  have z2 := Nat.eq_zero_of_dvd_of_lt d2 (by omega)
  omega

/-- The streaming branch and the non-streaming branch of `VectorizedAssign`
write the same destination contents. -/
theorem vaPaths_eq (W : Nat) (hW : 0 < W) (remainder : Bool) (first lastIdx last : Nat)
    (hfl : first ≤ last) (rhs buf : Nat → α) :
    vaStreamingPath W remainder first lastIdx last rhs buf
      = vaStorePath W remainder first lastIdx last rhs buf := by
  simp only [vaStreamingPath, vaStorePath]
  obtain ⟨s1, s2, s3, s4, s5, s6⟩ :=
    streamLoop_spec rhs W hW (last - first) first last buf (le_refl _)
  set es := streamLoop rhs W (last - first) first last buf with hes
  obtain ⟨a1, a2, a3, a4, a5, a6⟩ :=
    vaLoop4_spec rhs W hW (last - first) first last buf (le_refl _)
  set e4 := vaLoop4 rhs W (last - first) first last buf with he4
  obtain ⟨b1, b2, b3, b4, b5, b6⟩ :=
    vaLoop1_spec rhs W hW (last - e4.1) e4.1 last e4.2 (le_refl _)
  set e1 := vaLoop1 rhs W (last - e4.1) e4.1 last e4.2 with he1
  have hd1 : W ∣ e1.1 - first := by
    have hsplit : e1.1 - first = (e1.1 - e4.1) + (e4.1 - first) := by omega
    rw [hsplit]
    exact dvd_add b3 a3
  have hend : es.1 = e1.1 := by
    by_cases hc : last ≤ first
    · have h1 : es.1 = first := s6 hc
      have h2 : e4.1 = first := a6 hc
      have h3 : e1.1 = e4.1 := b6 (by omega)
      omega
    · have hesw : es.1 < last + W := by
        rcases s5 with h | h
        · omega
        · exact h
      have he1w : e1.1 < last + W := by
        rcases b5 with h | h
        · rcases a5 with h4 | h4
          · omega
          · omega
        · exact h
      exact endpoint_unique W first last es.1 e1.1 hW s2 (le_trans a2 b2) s3 hd1 s4 b4 hesw he1w
  have hbuf : es.2 = e1.2 := by
    rw [s1, b1, a1, opSpec_compose _ rhs first e4.1 e1.1 a2 b2, hend]
  rw [hend, hbuf]

/-- C3: for every element count N up to (4 x SIMD lane width x 3) + 1 and every
index range [first, last) of that size, the vectorized compound-add functor
(4-lane-chunk loop, then single-lane-chunk loop, then scalar remainder tail)
writes exactly the same destination contents as the scalar compound-add
functor over the same range, on identical inputs. -/
theorem C3_vectorized_add_equals_scalar_add {α : Type} [Add α] (W : Nat) (unroll : Bool)
    (allocSize : Nat → Nat) (first lastIdx : Nat) (rhs buf : Nat → α)
    (hW : 0 < W) (hle : first ≤ lastIdx) (hN : lastIdx - first ≤ 4 * W * 3 + 1) :
    VectorizedAssignAdd W true allocSize first lastIdx rhs buf
      = AssignAdd unroll first lastIdx rhs buf := by
  show vecCompoundApply (fun a b => a + b) W true allocSize first lastIdx rhs buf
    = scalarCompoundApply (fun a b => a + b) unroll first lastIdx rhs buf
  rw [vecCompoundApply_remainder_eq (fun a b => a + b) W hW allocSize first lastIdx hle,
    scalarCompoundApply_eq (fun a b => a + b) unroll first lastIdx hle]

theorem C3_witness :
    0 < 2 ∧ (0 : Nat) ≤ 13 ∧ 13 - 0 ≤ 4 * 2 * 3 + 1
    ∧ VectorizedAssignAdd 2 true (alloc_size 4) 0 13 (fun i => (i : Int))
        (fun i => (2 * i : Int))
      = AssignAdd true 0 13 (fun i => (i : Int)) (fun i => (2 * i : Int)) :=
  ⟨by decide, by decide, by decide,
    C3_vectorized_add_equals_scalar_add 2 true (alloc_size 4) 0 13 (fun i => (i : Int))
      (fun i => (2 * i : Int)) (by decide) (by decide) (by decide)⟩

/-- C4: when the source aliases the destination the streaming-store condition
of VectorizedAssign is false, so the functor runs the ordinary cached-store
path and its result is that of the non-streaming path; the streaming
condition holds exactly when streaming is enabled, the range size exceeds
cache_size / (3 x element size), and source and destination do not alias; and
the streaming path writes the same contents as the non-streaming path. -/
theorem C4_alias_streaming_safety {α : Type} (W cacheSize elemSize : Nat)
    (remainder streaming aliased : Bool) (first lastIdx : Nat) (rhs buf : Nat → α)
    (hW : 0 < W) (hle : first ≤ lastIdx) :
    (aliased = true →
      streamingCond streaming (lastIdx - first) cacheSize elemSize aliased = false
      ∧ VectorizedAssign W remainder streaming cacheSize elemSize aliased first lastIdx rhs buf
          = vaStorePath W remainder first lastIdx (vaComputedLast W remainder first lastIdx)
              rhs buf)
    ∧ (streamingCond streaming (lastIdx - first) cacheSize elemSize aliased = true ↔
        (streaming = true ∧ cacheSize / (elemSize * 3) < lastIdx - first ∧ aliased = false))
    ∧ vaStreamingPath W remainder first lastIdx (vaComputedLast W remainder first lastIdx)
          rhs buf
        = vaStorePath W remainder first lastIdx (vaComputedLast W remainder first lastIdx)
            rhs buf := by
  have hfl : first ≤ vaComputedLast W remainder first lastIdx := by
    simp only [vaComputedLast]
    cases remainder <;> simp <;> omega
  refine ⟨?_, ?_, vaPaths_eq W hW remainder first lastIdx _ hfl rhs buf⟩
  · intro ha
    have hcond : streamingCond streaming (lastIdx - first) cacheSize elemSize aliased = false := by
      simp [streamingCond, ha]
    refine ⟨hcond, ?_⟩
    show (if streamingCond streaming (lastIdx - first) cacheSize elemSize aliased then _ else _) = _
    rw [hcond]
    simp
  · simp only [streamingCond, Bool.and_eq_true, Bool.not_eq_eq_eq_not, Bool.not_true,
      decide_eq_true_eq, gt_iff_lt]
    constructor
    · rintro ⟨⟨h1, h2⟩, h3⟩
      exact ⟨h1, h2, by simpa using h3⟩
    · rintro ⟨h1, h2, h3⟩
      exact ⟨⟨h1, h2⟩, by simp [h3]⟩

theorem vecCompoundApply_zero (g : α → α → α) (W P : Nat) (remainder : Bool) (first : Nat)
    (rhs buf : Nat → α) :
    vecCompoundApply g W remainder (alloc_size P) first first rhs buf = buf := by
  simp only [vecCompoundApply, Nat.sub_self, alloc_size_zero, Nat.add_zero, ite_self,
    vecLoop4, vecLoop1, scalarTail]

theorem vectorizedAssign_zero (W cacheSize elemSize : Nat) (remainder streaming aliased : Bool)
    (first : Nat) (rhs buf : Nat → α) :
    VectorizedAssign W remainder streaming cacheSize elemSize aliased first first rhs buf
      = buf := by
  have hcond : streamingCond streaming (first - first) cacheSize elemSize aliased = false := by
    simp [streamingCond]
  show (if streamingCond streaming (first - first) cacheSize elemSize aliased then _ else _) = _
  rw [hcond]
  simp only [Bool.false_eq_true, if_false, vaStorePath, vaComputedLast, Nat.sub_self,
    Nat.zero_mod, Nat.add_zero, ite_self, vaLoop4, vaLoop1, scalarTail]

/-- C8: every execution functor (scalar plain assign, scalar compound
add/sub/mul/div, vectorized plain assign and the vectorized compound
variants) is a no-op on a zero-length range, for every unrolling, streaming
and padding configuration. -/
theorem C8_zero_length_noop {α : Type} [Add α] [Sub α] [Mul α] [Div α]
    (unroll remainder streaming : Bool) (W P cacheSize elemSize : Nat) (aliased : Bool)
    (first : Nat) (rhs buf : Nat → α) (hW : 0 < W) :
    Assign unroll 0 rhs buf = buf
    ∧ AssignAdd unroll first first rhs buf = buf
    ∧ AssignSub unroll first first rhs buf = buf
    ∧ AssignMul unroll first first rhs buf = buf
    ∧ AssignDiv unroll first first rhs buf = buf
    ∧ VectorizedAssignAdd W remainder (alloc_size P) first first rhs buf = buf
    ∧ VectorizedAssignSub W remainder (alloc_size P) first first rhs buf = buf
    ∧ VectorizedAssignMul W remainder (alloc_size P) first first rhs buf = buf
    ∧ VectorizedAssignDiv W remainder (alloc_size P) first first rhs buf = buf
    ∧ VectorizedAssign W remainder streaming cacheSize elemSize aliased first first rhs buf
        = buf := by
  have hs : ∀ g : α → α → α, scalarCompoundApply g unroll first first rhs buf = buf := by
    intro g
    rw [scalarCompoundApply_eq g unroll first first (le_refl _) rhs buf,
      opSpec_empty g rhs (le_refl first) buf]
  have hA : Assign unroll 0 rhs buf = buf := by
    rw [Assign_eq, opSpec_empty _ rhs (le_refl 0) buf]
  exact ⟨hA, hs _, hs _, hs _, hs _,
    vecCompoundApply_zero _ W P remainder first rhs buf,
    vecCompoundApply_zero _ W P remainder first rhs buf,
    vecCompoundApply_zero _ W P remainder first rhs buf,
    vecCompoundApply_zero _ W P remainder first rhs buf,
    vectorizedAssign_zero W cacheSize elemSize remainder streaming aliased first rhs buf⟩

theorem C8_witness :
    0 < 4
    ∧ Assign true 0 (fun i : Nat => (i : Int)) (fun i : Nat => (3 * i : Int)) = (fun i : Nat => (3 * i : Int))
    ∧ AssignAdd true 5 5 (fun i : Nat => (i : Int)) (fun i : Nat => (3 * i : Int)) = (fun i : Nat => (3 * i : Int))
    ∧ AssignSub true 5 5 (fun i : Nat => (i : Int)) (fun i : Nat => (3 * i : Int)) = (fun i : Nat => (3 * i : Int))
    ∧ AssignMul true 5 5 (fun i : Nat => (i : Int)) (fun i : Nat => (3 * i : Int)) = (fun i : Nat => (3 * i : Int))
    ∧ AssignDiv true 5 5 (fun i : Nat => (i : Int)) (fun i : Nat => (3 * i : Int)) = (fun i : Nat => (3 * i : Int))
    ∧ VectorizedAssignAdd 4 true (alloc_size 8) 5 5 (fun i : Nat => (i : Int))
        (fun i : Nat => (3 * i : Int)) = (fun i : Nat => (3 * i : Int))
    ∧ VectorizedAssignSub 4 true (alloc_size 8) 5 5 (fun i : Nat => (i : Int))
        (fun i : Nat => (3 * i : Int)) = (fun i : Nat => (3 * i : Int))
    ∧ VectorizedAssignMul 4 true (alloc_size 8) 5 5 (fun i : Nat => (i : Int))
        (fun i : Nat => (3 * i : Int)) = (fun i : Nat => (3 * i : Int))
    ∧ VectorizedAssignDiv 4 true (alloc_size 8) 5 5 (fun i : Nat => (i : Int))
        (fun i : Nat => (3 * i : Int)) = (fun i : Nat => (3 * i : Int))
    ∧ VectorizedAssign 4 true false 100 8 false 5 5 (fun i : Nat => (i : Int))
        (fun i : Nat => (3 * i : Int)) = (fun i : Nat => (3 * i : Int)) :=
  ⟨by decide,
    C8_zero_length_noop true true false 4 8 100 8 false 5 (fun i : Nat => (i : Int))
      (fun i : Nat => (3 * i : Int)) (by decide)⟩

theorem C4_witness :
    0 < 4 ∧ (0 : Nat) ≤ 9
    ∧ streamingCond true (9 - 0) 6 1 true = false
    ∧ VectorizedAssign 4 true true 6 1 true 0 9 (fun i => (i : Int)) (fun _ => (0 : Int))
        = vaStorePath 4 true 0 9 (vaComputedLast 4 true 0 9) (fun i => (i : Int))
            (fun _ => (0 : Int)) :=
  ⟨by decide, by decide,
    ((C4_alias_streaming_safety 4 6 1 true true true 0 9 (fun i => (i : Int)) (fun _ => (0 : Int))
      (by decide) (by decide)).1 rfl).1,
    ((C4_alias_streaming_safety 4 6 1 true true true 0 9 (fun i => (i : Int)) (fun _ => (0 : Int))
      (by decide) (by decide)).1 rfl).2⟩

/-! ### Coherency flags of the evaluator (evaluator.hpp)

Every assignment-family implementation of evaluator.hpp ends by updating the
coherency flags of the destination; the definitions below are the
flag-transition part of each implementation (the buffer writes are the
functor models above). -/

structure CoherencyFlags where
  cpu : Bool
  gpu : Bool
  deriving DecidableEq

def validate_cpu (f : CoherencyFlags) : CoherencyFlags := { f with cpu := true }

def validate_gpu (f : CoherencyFlags) : CoherencyFlags := { f with gpu := true }

def invalidate_cpu (f : CoherencyFlags) : CoherencyFlags := { f with cpu := false }

def invalidate_gpu (f : CoherencyFlags) : CoherencyFlags := { f with gpu := false }

/-- Modelled from the spec: `gpu_copy_from` is a container method outside the
staged files; it writes the destination device memory, so device memory
becomes valid, and the comment inside fast_assign_impl_full (evaluator.hpp
line 126) records that it erases the CPU status. -/
def gpu_copy_from (f : CoherencyFlags) : CoherencyFlags := { f with cpu := false, gpu := true }

/-- Flag effect of `standard_assign_impl` (evaluator.hpp lines 92-97): the
plain standard assign loop touches no coherency flag. -/
def standard_assign_impl_flags (fr : CoherencyFlags) : CoherencyFlags := fr

/-- Flag effect of `fast_assign_impl_full` (evaluator.hpp lines 108-148,
ETL_CUDA branch); `fe` is the source expression flag pair, `fr` the
destination flag pair: validate CPU under a valid source CPU copy; under a
valid source GPU copy, gpu_copy_from and then restore the saved CPU status;
finally invalidate each side the source does not hold. -/
def fast_assign_impl_full_flags (fe fr : CoherencyFlags) : CoherencyFlags :=
  let fr1 := if fe.cpu then validate_cpu fr else fr
  let fr2 :=
    if fe.gpu then
      (if fe.cpu then validate_cpu (gpu_copy_from fr1) else gpu_copy_from fr1)
    else fr1
  let fr3 := if !fe.cpu then invalidate_cpu fr2 else fr2
  if !fe.gpu then invalidate_gpu fr3 else fr3

/-- Flag effect of the converting `fast_assign_impl` (evaluator.hpp lines
159-167): validate_cpu then invalidate_gpu. -/
def fast_assign_impl_flags (fr : CoherencyFlags) : CoherencyFlags :=
  invalidate_gpu (validate_cpu fr)

/-- Flag effect of `gpu_assign_impl` (evaluator.hpp lines 177-192). -/
def gpu_assign_impl_flags (fr : CoherencyFlags) : CoherencyFlags :=
  invalidate_cpu (validate_gpu fr)

/-- Flag effect of `direct_assign_impl` (evaluator.hpp lines 203-216). -/
def direct_assign_impl_flags (fr : CoherencyFlags) : CoherencyFlags :=
  invalidate_gpu (validate_cpu fr)

/-- Flag effect of `vectorized_assign_impl` (evaluator.hpp lines 227-242). -/
def vectorized_assign_impl_flags (fr : CoherencyFlags) : CoherencyFlags :=
  invalidate_gpu (validate_cpu fr)

/-- Flag effect of `standard_compound_add_impl` (evaluator.hpp lines 306-316);
the sub/mul/div standard compound implementations and `mod_evaluate` end with
the same validate_cpu; invalidate_gpu pair. -/
def standard_compound_add_impl_flags (fr : CoherencyFlags) : CoherencyFlags :=
  invalidate_gpu (validate_cpu fr)

/-- Flag effect of `direct_compound_add_impl` (evaluator.hpp lines 327-342)
and of the sub/mul/div direct compound implementations. -/
def direct_compound_add_impl_flags (fr : CoherencyFlags) : CoherencyFlags :=
  invalidate_gpu (validate_cpu fr)

/-- Flag effect of `vectorized_compound_add_impl` (evaluator.hpp lines
353-370) and of the sub/mul/div vectorized compound implementations. -/
def vectorized_compound_add_impl_flags (fr : CoherencyFlags) : CoherencyFlags :=
  invalidate_gpu (validate_cpu fr)

/-- Flag effect of `mod_evaluate` (evaluator.hpp lines 1066-1079). -/
def mod_evaluate_flags (fr : CoherencyFlags) : CoherencyFlags :=
  invalidate_gpu (validate_cpu fr)

/-- Flag effect of `gpu_assign_add_impl` (evaluator.hpp lines 383-402) and of
the GPU compound sub/mul/div implementations: validate_gpu; invalidate_cpu. -/
def gpu_assign_add_impl_flags (fr : CoherencyFlags) : CoherencyFlags :=
  invalidate_cpu (validate_gpu fr)

/-- C1 fails as stated: the same-value-type fast copy
(`fast_assign_impl_full`) applied to a source expression whose CPU and GPU
copies are both valid leaves the destination with BOTH flags set, not with
host valid and device invalid. -/
theorem C1_counterexample :
    fast_assign_impl_full_flags ⟨true, true⟩ ⟨false, false⟩ = ⟨true, true⟩
    ∧ ¬((fast_assign_impl_full_flags ⟨true, true⟩ ⟨false, false⟩).cpu = true
        ∧ (fast_assign_impl_full_flags ⟨true, true⟩ ⟨false, false⟩).gpu = false) := by
  decide

/-- C1 amended: after direct, vectorized, converting fast-copy and every
compound host implementation the destination is host-valid and
device-invalid; after the accelerator implementations it is device-valid and
host-invalid; the same-type fast-copy replicates the source expression flag
pair onto the destination (which may therefore end with both flags set); and
the plain standard assign leaves the destination flags unchanged. -/
theorem C1_flag_postconditions (fe fr : CoherencyFlags) :
    fast_assign_impl_flags fr = ⟨true, false⟩
    ∧ direct_assign_impl_flags fr = ⟨true, false⟩
    ∧ vectorized_assign_impl_flags fr = ⟨true, false⟩
    ∧ standard_compound_add_impl_flags fr = ⟨true, false⟩
    ∧ direct_compound_add_impl_flags fr = ⟨true, false⟩
    ∧ vectorized_compound_add_impl_flags fr = ⟨true, false⟩
    ∧ mod_evaluate_flags fr = ⟨true, false⟩
    ∧ gpu_assign_impl_flags fr = ⟨false, true⟩
    ∧ gpu_assign_add_impl_flags fr = ⟨false, true⟩
    ∧ standard_assign_impl_flags fr = fr
    ∧ fast_assign_impl_full_flags fe fr = fe := by
  rcases fe with ⟨ec, eg⟩
  rcases fr with ⟨rc, rg⟩
  cases ec <;> cases eg <;> cases rc <;> cases rg <;> decide

/-! ### Assign strategy selectors (eval_selectors.hpp) -/

inductive vector_mode_t
  | AVX512
  | AVX
  | SSE3
  | NONE
  deriving DecidableEq

/-- The static capability traits of one expression or result type, as the
selectors consult them: `has_direct_access`, gpu computability,
`vectorizable<V>` per vector mode, storage order and the element type
(identified by a numeral, compared for sameness and classified by the
configuration below). -/
structure TypeTraits where
  dma : Bool
  gpu_computable : Bool
  rowMajor : Bool
  vectorizable : vector_mode_t → Bool
  value_type : Nat

/-- The compile-time configuration the selectors read: which instruction sets
are enabled, `vectorize_expr`, and the intrinsic traits and numeric
classification of element types. -/
structure VecConfig where
  avx512_enabled : Bool
  avx_enabled : Bool
  sse3_enabled : Bool
  vectorize_expr : Bool
  intrinsic_vectorizable : vector_mode_t → Nat → Bool
  intrinsic_type : vector_mode_t → Nat → Nat
  is_floating : Nat → Bool
  is_complex : Nat → Bool

/-- `are_vectorizable_select` (eval_selectors.hpp lines 28-39). -/
def are_vectorizable_select (cfg : VecConfig) (V : vector_mode_t) (e r : TypeTraits) : Bool :=
  cfg.vectorize_expr && r.vectorizable V && e.vectorizable V
    && (e.rowMajor == r.rowMajor)
    && cfg.intrinsic_vectorizable V r.value_type
    && cfg.intrinsic_vectorizable V e.value_type
    && (cfg.intrinsic_type V r.value_type == cfg.intrinsic_type V e.value_type)

/-- `are_vectorizable` (eval_selectors.hpp lines 44-48). -/
def are_vectorizable (cfg : VecConfig) (e r : TypeTraits) : Bool :=
  (cfg.avx512_enabled && are_vectorizable_select cfg .AVX512 e r)
    || (cfg.avx_enabled && are_vectorizable_select cfg .AVX e r)
    || (cfg.sse3_enabled && are_vectorizable_select cfg .SSE3 e r)

/-- `fast_assign` (eval_selectors.hpp line 72): `all_dma<E, R>`. -/
def fast_assign (e r : TypeTraits) : Bool := e.dma && r.dma

/-- `gpu_assign` (eval_selectors.hpp line 78). -/
def gpu_assign (e r : TypeTraits) : Bool :=
  !fast_assign e r && (e.gpu_computable && r.gpu_computable)

/-- `vectorized_assign` (eval_selectors.hpp line 84). -/
def vectorized_assign (cfg : VecConfig) (e r : TypeTraits) : Bool :=
  !gpu_assign e r && are_vectorizable cfg e r

/-- `direct_assign` (eval_selectors.hpp line 90). -/
def direct_assign (cfg : VecConfig) (e r : TypeTraits) : Bool :=
  !gpu_assign e r && !are_vectorizable cfg e r && !e.dma && r.dma

/-- `standard_assign` (eval_selectors.hpp line 96). -/
def standard_assign (e r : TypeTraits) : Bool := !r.dma

/-- `vectorized_compound` (eval_selectors.hpp line 104). -/
def vectorized_compound (cfg : VecConfig) (e r : TypeTraits) : Bool := are_vectorizable cfg e r

/-- `direct_compound` (eval_selectors.hpp line 110). -/
def direct_compound (cfg : VecConfig) (e r : TypeTraits) : Bool :=
  !vectorized_compound cfg e r && r.dma

/-- `standard_compound` (eval_selectors.hpp line 116). -/
def standard_compound (cfg : VecConfig) (e r : TypeTraits) : Bool :=
  !vectorized_compound cfg e r && !direct_compound cfg e r

/-- `vectorized_compound_div` (eval_selectors.hpp line 124): the extra
numeric-type gate for compound division. -/
def vectorized_compound_div (cfg : VecConfig) (e r : TypeTraits) : Bool :=
  (cfg.is_floating e.value_type || cfg.is_complex e.value_type) && are_vectorizable cfg e r

/-- `direct_compound_div` (eval_selectors.hpp line 130). -/
def direct_compound_div (cfg : VecConfig) (e r : TypeTraits) : Bool :=
  !vectorized_compound_div cfg e r && r.dma

/-- `standard_compound_div` (eval_selectors.hpp line 136). -/
def standard_compound_div (cfg : VecConfig) (e r : TypeTraits) : Bool :=
  !vectorized_compound_div cfg e r && !direct_compound_div cfg e r

/-- A configuration with SSE3 and `vectorize_expr` enabled, every type
vectorizable with a shared intrinsic type; element type 1 is floating. -/
def vecConfigX : VecConfig :=
  { avx512_enabled := false, avx_enabled := false, sse3_enabled := true,
    vectorize_expr := true, intrinsic_vectorizable := fun _ _ => true,
    intrinsic_type := fun _ t => t, is_floating := fun t => t == 1,
    is_complex := fun _ => false }

/-- A dense row-major float operand: direct memory access, vectorizable, not
gpu-computable (the plain CPU build). -/
def denseTraitsX : TypeTraits :=
  { dma := true, gpu_computable := false, rowMajor := true,
    vectorizable := fun _ => true, value_type := 1 }

/-- C2 evidence: for a dense vectorizable source and destination (the common
case of assigning one dense float matrix to another with vectorization
enabled), `fast_assign` and `vectorized_assign` are BOTH true:
`vectorized_assign` excludes only `gpu_assign`, not `fast_assign`, unlike the
compound selector chain, so two of the five predicates hold at once and the
SFINAE-dispatched `assign_evaluate_impl` overload set is ambiguous. -/
theorem C2_two_predicates_hold :
    fast_assign denseTraitsX denseTraitsX = true
    ∧ vectorized_assign vecConfigX denseTraitsX denseTraitsX = true := by
  exact ⟨rfl, rfl⟩

/-- C6: compound divide never selects the vectorized strategy for an integer
element type (one that is neither floating nor complex); such a divide is
dispatched to exactly one of the direct or standard implementations. -/
theorem C6_integer_div_not_vectorized (cfg : VecConfig) (e r : TypeTraits)
    (hf : cfg.is_floating e.value_type = false) (hc : cfg.is_complex e.value_type = false) :
    vectorized_compound_div cfg e r = false
    ∧ (direct_compound_div cfg e r = true ∨ standard_compound_div cfg e r = true)
    ∧ ¬(direct_compound_div cfg e r = true ∧ standard_compound_div cfg e r = true) := by
  have hv : vectorized_compound_div cfg e r = false := by
    simp [vectorized_compound_div, hf, hc]
  refine ⟨hv, ?_, ?_⟩
  · cases hr : r.dma
    · right
      simp [standard_compound_div, direct_compound_div, hv, hr]
    · left
      simp [direct_compound_div, hv, hr]
  · rintro ⟨h1, h2⟩
    simp [standard_compound_div, h1] at h2

/-- An integer-element operand: element type 0, not floating, not complex. -/
def intTraitsX : TypeTraits :=
  { dma := true, gpu_computable := false, rowMajor := true,
    vectorizable := fun _ => true, value_type := 0 }

theorem C6_witness :
    vectorized_compound_div vecConfigX intTraitsX intTraitsX = false
    ∧ (direct_compound_div vecConfigX intTraitsX intTraitsX = true
        ∨ standard_compound_div vecConfigX intTraitsX intTraitsX = true)
    ∧ ¬(direct_compound_div vecConfigX intTraitsX intTraitsX = true
        ∧ standard_compound_div vecConfigX intTraitsX intTraitsX = true) :=
  C6_integer_div_not_vectorized vecConfigX intTraitsX intTraitsX rfl rfl

/-! ### Storage-order dispatch of std_assign_evaluate (evaluator.hpp lines 1105-1131) -/

/-- A 2-D (or 1-D) source expression: dimension count, extents, storage
order, the generator flag and the mathematical entries `f i j`. -/
structure MExpr (α : Type) where
  dims : Nat
  m : Nat
  n : Nat
  rowMajor : Bool
  isGenerator : Bool
  f : Nat → Nat → α

/-- `read_flat` of a 2-D expression: the element at flat position `k` in the
expression storage order. -/
def MExpr.read_flat (e : MExpr α) (k : Nat) : α :=
  if e.rowMajor then e.f (k / e.n) (k % e.n) else e.f (k % e.m) (k / e.m)

/-- The destination: dimension count, extents, storage order and the flat
memory it writes through `operator[]`. -/
structure RMat (α : Type) where
  dims : Nat
  m : Nat
  n : Nat
  rowMajor : Bool
  buf : Nat → α

/-- Modelled from the spec: `transpose(expr)` is not among the staged files;
the transposed view swaps the two dimensions, reads element (i, j) as the
source element (j, i) and, being a view over the source, keeps the source
storage order. -/
def transpose (e : MExpr α) : MExpr α :=
  { dims := e.dims, m := e.n, n := e.m, rowMajor := e.rowMajor,
    isGenerator := e.isGenerator, f := fun i j => e.f j i }

/-- `direct_assign_compatible` (evaluator.hpp lines 1105-1110). -/
def direct_assign_compatible (e : MExpr α) (r : RMat α) : Bool :=
  e.isGenerator || (e.rowMajor == r.rowMajor) || (e.dims == 1 && r.dims == 1)

/-- `standard_evaluator::assign_evaluate` landing in `standard_assign_impl`
(evaluator.hpp lines 92-97): `result[i] = expr.read_flat(i)` for every
`i < size(result)`. -/
def assign_evaluate (e : MExpr α) (r : RMat α) : RMat α :=
  { r with buf := fun k => if k < r.m * r.n then e.read_flat k else r.buf k }

/-- `std_assign_evaluate` (evaluator.hpp lines 1117-1131): assign directly
when compatible, else assign the transposed view. -/
def std_assign_evaluate (e : MExpr α) (r : RMat α) : RMat α :=
  if direct_assign_compatible e r then assign_evaluate e r
  else assign_evaluate (transpose e) r

/-- Element (i, j) of the destination, located by its storage order. -/
def RMat.entry (r : RMat α) (i j : Nat) : α :=
  if r.rowMajor then r.buf (i * r.n + j) else r.buf (i + j * r.m)

/-- C5: a 2-D assignment whose source storage order differs from the
destination order (source not a generator) is evaluated against the
transposed view of the source and yields the transpose-corrected values
`dest(i, j) = source(i, j)`; when the orders match, or the source is a
generator, or both operands are 1-D, the source is assigned directly. -/
theorem C5_transposition_fallback {α : Type} (e : MExpr α) (r : RMat α)
    (hed : e.dims = 2) (hrd : r.dims = 2) (hm : e.m = r.m) (hn : e.n = r.n) :
    ((e.rowMajor ≠ r.rowMajor ∧ e.isGenerator = false) →
      std_assign_evaluate e r = assign_evaluate (transpose e) r
      ∧ ∀ i j, i < r.m → j < r.n → (std_assign_evaluate e r).entry i j = e.f i j)
    ∧ ((e.rowMajor = r.rowMajor ∨ e.isGenerator = true ∨ (e.dims = 1 ∧ r.dims = 1)) →
      std_assign_evaluate e r = assign_evaluate e r) := by
  constructor
  · rintro ⟨hord, hgen⟩
    have hcompat : direct_assign_compatible e r = false := by
      simp [direct_assign_compatible, hgen, hed, hrd, hord]
    have hstd : std_assign_evaluate e r = assign_evaluate (transpose e) r := by
      simp [std_assign_evaluate, hcompat]
    refine ⟨hstd, ?_⟩
    intro i j hi hj
    have hm0 : 0 < r.m := by omega
    have hn0 : 0 < r.n := by omega
    rw [hstd]
    cases hr : r.rowMajor
    · have he : e.rowMajor = true := by
        cases hE : e.rowMajor
        · rw [hE, hr] at hord
          exact absurd rfl hord
        · rfl
      have hmod : (i + j * r.m) % r.m = i := by
        rw [Nat.add_mul_mod_self_right, Nat.mod_eq_of_lt hi]
      have hdiv : (i + j * r.m) / r.m = j := by
        rw [Nat.add_mul_div_right _ _ hm0, Nat.div_eq_of_lt hi, Nat.zero_add]
      have hbound : i + j * r.m < r.m * r.n := by
        have h1 : (i + j * r.m) / r.m < r.n := by
          rw [hdiv]
          exact hj
        have h2 := (Nat.div_lt_iff_lt_mul hm0).mp h1
        rw [Nat.mul_comm r.m r.n]
        exact h2
      simp only [RMat.entry, assign_evaluate, hr, Bool.false_eq_true, if_false]
      rw [if_pos hbound]
      simp only [MExpr.read_flat, transpose, he, if_true, hm, hn]
      rw [hmod, hdiv]
    · have he : e.rowMajor = false := by
        cases hE : e.rowMajor
        · rfl
        · rw [hE, hr] at hord
          exact absurd rfl hord
      have hmod : (i * r.n + j) % r.n = j := by
        rw [Nat.add_comm, Nat.add_mul_mod_self_right, Nat.mod_eq_of_lt hj]
      have hdiv : (i * r.n + j) / r.n = i := by
        rw [Nat.add_comm, Nat.add_mul_div_right _ _ hn0, Nat.div_eq_of_lt hj, Nat.zero_add]
      have hbound : i * r.n + j < r.m * r.n := by
        have h1 : (i * r.n + j) / r.n < r.m := by
          rw [hdiv]
          exact hi
        exact (Nat.div_lt_iff_lt_mul hn0).mp h1
      simp only [RMat.entry, assign_evaluate, hr, if_true]
      rw [if_pos hbound]
      simp only [MExpr.read_flat, transpose, he, Bool.false_eq_true, if_false, hm, hn]
      rw [hmod, hdiv]
  · intro hOr
    have hcompat : direct_assign_compatible e r = true := by
      rcases hOr with h | h | ⟨h1, h2⟩
      · simp [direct_assign_compatible, h]
      · simp [direct_assign_compatible, h]
      · rw [hed] at h1
        omega
    simp [std_assign_evaluate, hcompat]

/-- A 2 x 3 column-major source with entries 10 i + j. -/
def eC5 : MExpr Int :=
  { dims := 2, m := 2, n := 3, rowMajor := false, isGenerator := false,
    f := fun i j => 10 * (i : Int) + (j : Int) }

/-- A 2 x 3 row-major destination, zero initialized. -/
def rC5 : RMat Int := { dims := 2, m := 2, n := 3, rowMajor := true, buf := fun _ => 0 }

theorem C5_witness :
    std_assign_evaluate eC5 rC5 = assign_evaluate (transpose eC5) rC5
    ∧ (std_assign_evaluate eC5 rC5).entry 1 2 = eC5.f 1 2 :=
  ⟨((C5_transposition_fallback eC5 rC5 rfl rfl rfl rfl).1 ⟨by decide, rfl⟩).1,
    ((C5_transposition_fallback eC5 rC5 rfl rfl rfl rfl).1 ⟨by decide, rfl⟩).2 1 2
      (by decide) (by decide)⟩

/-! ### The gemm implementation selector (impl/mmul.hpp) -/

inductive gemm_impl
  | STD
  | FAST
  | BLAS
  | CUBLAS
  | VEC
  deriving DecidableEq

/-- The compile-time configuration `select_gemm_impl` reads:
`is_cblas_enabled`, `is_cublas_enabled`, `gemm_cublas_min`, `gemm_std_max`. -/
structure GemmConfig where
  is_cblas_enabled : Bool
  is_cublas_enabled : Bool
  gemm_cublas_min : Nat
  gemm_std_max : Nat

/-- `select_default_gemm_impl` (impl/mmul.hpp lines 21-54); `DMA` is
`all_dma<A, B, C>` and `complexT` is `is_complex_t<T>`. -/
def select_default_gemm_impl (cfg : GemmConfig) (DMA complexT : Bool)
    (n1 n2 n3 : Nat) : gemm_impl :=
  if !DMA then .STD
  else if cfg.is_cublas_enabled then
    if n1 * n3 < cfg.gemm_cublas_min then
      if cfg.is_cblas_enabled then .BLAS
      else if n1 * n3 < cfg.gemm_std_max then .STD
      else .CUBLAS
    else .CUBLAS
  else if cfg.is_cblas_enabled then .BLAS
  else if n1 * n3 < cfg.gemm_std_max || complexT then .STD
  else .FAST

/-- The thread-local forced-selection context `local_context().gemm_selector`. -/
structure gemm_selector_t where
  forced : Bool
  impl : gemm_impl

/-- `select_gemm_impl` (impl/mmul.hpp lines 56-96).  The second component
records whether a diagnostic line was written to the standard error channel
(std::cerr). -/
def select_gemm_impl (cfg : GemmConfig) (sel : gemm_selector_t) (DMA complexT : Bool)
    (n1 n2 n3 : Nat) : gemm_impl × Bool :=
  if sel.forced then
    match sel.impl with
    | .CUBLAS =>
      if !cfg.is_cublas_enabled || !DMA then
        (select_default_gemm_impl cfg DMA complexT n1 n2 n3, true)
      else (.CUBLAS, false)
    | .BLAS =>
      if !cfg.is_cblas_enabled || !DMA then
        (select_default_gemm_impl cfg DMA complexT n1 n2 n3, true)
      else (.BLAS, false)
    | .FAST =>
      if !cfg.is_cblas_enabled || !DMA || complexT then
        (select_default_gemm_impl cfg DMA complexT n1 n2 n3, true)
      else (.FAST, false)
    | other => (other, false)
  else (select_default_gemm_impl cfg DMA complexT n1 n2 n3, false)

/-- C7: when a forced gemm backend is incompatible with the build or the
operand capabilities (CUBLAS or BLAS forced without the library or without
direct memory access, EBLAS forced without cblas, without direct memory
access or for a complex element type), `select_gemm_impl` emits a diagnostic
on standard error and returns exactly the default-selected backend, so the
operation completes; it is a total function and never aborts. -/
theorem C7_forced_gemm_fallback (cfg : GemmConfig) (sel : gemm_selector_t)
    (DMA complexT : Bool) (n1 n2 n3 : Nat) (hforced : sel.forced = true)
    (hbad : (sel.impl = .CUBLAS ∧ (cfg.is_cublas_enabled = false ∨ DMA = false))
      ∨ (sel.impl = .BLAS ∧ (cfg.is_cblas_enabled = false ∨ DMA = false))
      ∨ (sel.impl = .FAST
          ∧ (cfg.is_cblas_enabled = false ∨ DMA = false ∨ complexT = true))) :
    select_gemm_impl cfg sel DMA complexT n1 n2 n3
      = (select_default_gemm_impl cfg DMA complexT n1 n2 n3, true) := by
  unfold select_gemm_impl
  rw [if_pos hforced]
  rcases hbad with ⟨hi, hc⟩ | ⟨hi, hc⟩ | ⟨hi, hc⟩
  · have hcond : (!cfg.is_cublas_enabled || !DMA) = true := by
      rcases hc with h | h <;> simp [h]
    simp [hi, hcond]
  · have hcond : (!cfg.is_cblas_enabled || !DMA) = true := by
      rcases hc with h | h <;> simp [h]
    simp [hi, hcond]
  · have hcond : (!cfg.is_cblas_enabled || !DMA || complexT) = true := by
      rcases hc with h | h | h <;> simp [h]
    simp [hi, hcond]

/-- A build without cublas and without cblas. -/
def gemmCfgX : GemmConfig :=
  { is_cblas_enabled := false, is_cublas_enabled := false,
    gemm_cublas_min := 1000, gemm_std_max := 10000 }

/-- The forced-selection context forcing CUBLAS. -/
def gemmSelX : gemm_selector_t := { forced := true, impl := .CUBLAS }

theorem C7_witness :
    select_gemm_impl gemmCfgX gemmSelX true false 4 4 4
      = (select_default_gemm_impl gemmCfgX true false 4 4 4, true) :=
  C7_forced_gemm_fallback gemmCfgX gemmSelX true false 4 4 4 rfl (Or.inl ⟨rfl, Or.inl rfl⟩)

/-! ### The scalar wrapper (op/scalar.hpp) -/

/-- `scalar<T>` (op/scalar.hpp lines 20-89): an expression holding one value. -/
structure scalar (α : Type) where
  value : α

/-- `scalar::read_flat` (op/scalar.hpp lines 54-56). -/
def scalar.read_flat (s : scalar α) (d : Nat) : α := s.value

/-- `scalar::operator[]` (op/scalar.hpp lines 44-46). -/
def scalar.get (s : scalar α) (d : Nat) : α := s.value

/-- `scalar::operator()(args...)` (op/scalar.hpp lines 74-79). -/
def scalar.call (s : scalar α) (args : List Nat) : α := s.value

/-- `scalar::alias` (op/scalar.hpp lines 85-88): false for every expression. -/
def scalar.alias (s : scalar α) {β : Type} (e : β) : Bool := false

/-- C9: a `scalar` expression returns its held value from `read_flat`,
`operator[]` and `operator()` at every position (reads are
position-independent), and `alias` is false against every expression, so a
scalar source never falsifies the no-alias conjunct of the streaming-store
condition. -/
theorem C9_scalar_semantics {α β : Type} (v : α) (d d2 : Nat) (args : List Nat) (e : β)
    (streaming : Bool) (size cacheSize elemSize : Nat) :
    (scalar.mk v).read_flat d = v
    ∧ (scalar.mk v).get d = v
    ∧ (scalar.mk v).call args = v
    ∧ (scalar.mk v).read_flat d = (scalar.mk v).read_flat d2
    ∧ (scalar.mk v).alias e = false
    ∧ streamingCond streaming size cacheSize elemSize ((scalar.mk v).alias e)
        = (streaming && decide (size > cacheSize / (elemSize * 3))) := by
  refine ⟨rfl, rfl, rfl, rfl, rfl, ?_⟩
  simp [streamingCond, scalar.alias]

/-! ### The 2-D sub-matrix view (op/sub_matrix_2d.hpp) -/

/-- `sub_matrix_2d` (op/sub_matrix_2d.hpp lines 32-104): a window of extents
m x n with origin (base_i, base_j) over a base matrix of extents
base_m x base_n, read through the base flat access `sub_expr[.]`. -/
structure sub_matrix_2d (α : Type) where
  sub_expr : Nat → α
  base_i : Nat
  base_j : Nat
  m : Nat
  n : Nat
  base_m : Nat
  base_n : Nat

/-- The base flat index `sub_matrix_2d::operator[]` computes (lines 90-104):
row-major `(base_i + j / n) * base_n + (base_j + j % n)`, column-major
`(base_i + j % m) + (base_j + j / m) * base_m`. -/
def sub_matrix_2d.flatIndex (v : sub_matrix_2d α) (rowMajor : Bool) (j : Nat) : Nat :=
  if rowMajor then (v.base_i + j / v.n) * v.base_n + (v.base_j + j % v.n)
  else (v.base_i + j % v.m) + (v.base_j + j / v.m) * v.base_m

/-- `sub_matrix_2d::operator[]` (op/sub_matrix_2d.hpp lines 90-104). -/
def sub_matrix_2d.get (v : sub_matrix_2d α) (rowMajor : Bool) (j : Nat) : α :=
  v.sub_expr (v.flatIndex rowMajor j)

/-- The base-matrix element at row i, column j of a row-major base. -/
def baseEntryRM (f : Nat → α) (base_n i j : Nat) : α := f (i * base_n + j)

/-- The base-matrix element at row i, column j of a column-major base. -/
def baseEntryCM (f : Nat → α) (base_m i j : Nat) : α := f (i + j * base_m)

/-- C10: for a flat index `j < m * n`, `sub_matrix_2d::operator[]` accesses
exactly the base element at row `base_i + j / n`, column `base_j + j % n` in
the row-major case and at row `base_i + j % m`, column `base_j + j / m` in
the column-major case; the window offsets stay inside the m x n window. -/
theorem C10_sub_matrix_2d_index {α : Type} (v : sub_matrix_2d α) (j : Nat)
    (hj : j < v.m * v.n) :
    (v.get true j
        = baseEntryRM v.sub_expr v.base_n (v.base_i + j / v.n) (v.base_j + j % v.n)
      ∧ j / v.n < v.m ∧ j % v.n < v.n)
    ∧ (v.get false j
        = baseEntryCM v.sub_expr v.base_m (v.base_i + j % v.m) (v.base_j + j / v.m)
      ∧ j % v.m < v.m ∧ j / v.m < v.n) := by
  have hn : 0 < v.n := by
    rcases Nat.eq_zero_or_pos v.n with h | h
    · rw [h, Nat.mul_zero] at hj
      omega
    · exact h
  have hm : 0 < v.m := by
    rcases Nat.eq_zero_or_pos v.m with h | h
    · rw [h, Nat.zero_mul] at hj
      omega
    · exact h
  refine ⟨⟨rfl, (Nat.div_lt_iff_lt_mul hn).mpr hj, Nat.mod_lt _ hn⟩,
    ⟨rfl, Nat.mod_lt _ hm, (Nat.div_lt_iff_lt_mul hm).mpr (Nat.mul_comm v.m v.n ▸ hj)⟩⟩

/-- A 2 x 3 window at origin (1, 2) over a 5 x 7 base matrix. -/
def subX : sub_matrix_2d Int :=
  { sub_expr := fun k => (k : Int), base_i := 1, base_j := 2, m := 2, n := 3,
    base_m := 5, base_n := 7 }

theorem C10_witness : 4 / subX.n < subX.m ∧ 4 % subX.m < subX.m :=
  ⟨(C10_sub_matrix_2d_index subX 4 (by decide)).1.2.1,
    (C10_sub_matrix_2d_index subX 4 (by decide)).2.2.1⟩

end Etl
